import Mathlib

/-!
Verification of the CloverLeaf post-processing pipeline
(`data_processing/clover_vis.py`, `data_processing/visualize_V2.py`,
`data_processing/old_py_scripts/CloverLeaf_Data_Analyzer.py`).

The embedding starts at the point where the VTK library has handed the
scripts their in-memory data: a `RawGrid` holds the two coordinate arrays
and the flat (1-D) named cell/point arrays exactly as
`numpy_support.vtk_to_numpy` returns them.  Scalars are modelled as `ℚ`
(exact arithmetic standing in for IEEE doubles; all claims are stated
"within floating-point tolerance").  The square root applied by `np.sqrt`
is kept abstract as a parameter `sq : ℚ → ℚ` threaded through the reader,
so every definition stays executable.  Python exceptions are modelled with
`Except String`; Python dicts as association lists with Python's
insert-or-overwrite-in-place semantics.
-/

deriving instance DecidableEq for Except

namespace CloverVis

abbrev Scalar := ℚ
abbrev Vec := List Scalar
abbrev Mat := List (List Scalar)

/-- Python dict assignment `d[k] = v`: overwrite in place if the key is
present (keeping its position), otherwise append at the end. -/
def dictInsert {κ α : Type} [DecidableEq κ] (k : κ) (v : α) :
    List (κ × α) → List (κ × α)
  | [] => [(k, v)]
  | (k', v') :: rest =>
      if k' = k then (k, v) :: rest else (k', v') :: dictInsert k v rest

/-- Python dict lookup `d[k]` / `k in d`. -/
def dictLookup {κ α : Type} [DecidableEq κ] (k : κ) :
    List (κ × α) → Option α
  | [] => none
  | (k', v') :: rest => if k' = k then some v' else dictLookup k rest

/-- `m` is a rectangular 2-D array with `r` rows and `c` columns. -/
def hasShape (m : Mat) (r c : Nat) : Bool :=
  m.length == r && m.all (fun row => row.length == c)

/-- Element access `m[i, j]` (defaulting out of range, used only in-bounds). -/
def entry (m : Mat) (i j : Nat) : Scalar := (m.getD i []).getD j 0

/-- Row-major (C-order) chunking of a flat array into `r` rows of `c`. -/
def chunkRows (r c : Nat) (flat : Vec) : Mat :=
  (List.range r).map (fun i => (flat.drop (i * c)).take c)

/-- `numpy.reshape` of a flat array to a 2-D shape, the dimensions being
Python ints (the scripts pass `len(axis)` and `len(axis) - 1`, so a
dimension of `-1` is reachable when an axis is empty).  numpy semantics:
a `-1` dimension is inferred from the array size and the other dimension
(`ValueError` — here `none` — if that is impossible); otherwise the total
element count must equal the product.  Shapes with a dimension below `-1`,
or a `-1` that cannot be inferred (other dimension `0`), are errors. -/
def npReshape2 (flat : Vec) (r c : Int) : Option Mat :=
  if 0 ≤ r ∧ 0 ≤ c then
    if flat.length = r.toNat * c.toNat then
      some (chunkRows r.toNat c.toNat flat)
    else none
  else if r = -1 ∧ 0 < c then
    if c.toNat ∣ flat.length then
      some (chunkRows (flat.length / c.toNat) c.toNat flat)
    else none
  else if 0 < r ∧ c = -1 then
    if r.toNat ∣ flat.length then
      some (chunkRows r.toNat (flat.length / r.toNat) flat)
    else none
  else none

/-- `np.tile(x, (ny, 1))`: the 1-D X axis repeated as `ny` rows. -/
def xCoords2d (x : Vec) (ny : Nat) : Mat := List.replicate ny x

/-- `np.tile(y, (nx, 1)).T`: the transpose of the 1-D Y axis repeated as
`nx` rows, i.e. the `(ny, nx)` array whose row `i` is `nx` copies of
`y[i]` (numpy keeps the `ny` rows even when `nx = 0`, hence the direct
definition rather than `List.transpose`, which drops empty rows). -/
def yCoords2d (y : Vec) (nx : Nat) : Mat :=
  y.map (fun c => List.replicate nx c)

/-- The shape `(rows, row lengths)` of a 2-D array, as compared by
`np.stack` when checking that all inputs have the same shape. -/
def shapeOf (m : Mat) : Nat × List Nat := (m.length, m.map List.length)

/-- `np.stack([...], axis=0)`: requires at least one array and identical
shapes, and produces the 3-D stack (modelled as the list of layers). -/
def npStack (arrs : List Mat) : Except String (List Mat) :=
  match arrs with
  | [] => .error "need at least one array to stack"
  | a :: rest =>
      if rest.all (fun b => shapeOf b == shapeOf a) then .ok (a :: rest)
      else .error "all input arrays must have the same shape"

/-- The in-memory data the VTK reader hands to the scripts: the two
coordinate axes and the named flat cell- and point-attached arrays. -/
structure RawGrid where
  xCoords : Vec
  yCoords : Vec
  cellArrays : List (String × Vec)
  pointArrays : List (String × Vec)
deriving DecidableEq

/-- The `result` dict built by `read_vtk_file`. -/
structure ReadResult where
  xCoords : Vec
  yCoords : Vec
  cellData : List (String × Mat)
  pointData : List (String × Mat)
deriving DecidableEq

/-- The extraction loops of `read_vtk_file`: reshape each named flat array
to shape `(r, c)` and store it under its name; a numpy reshape failure
(`ValueError`) propagates out of the function. -/
def reshapeFold (r c : Int) :
    List (String × Vec) → List (String × Mat) →
    Except String (List (String × Mat))
  | [], acc => .ok acc
  | (n, a) :: rest, acc =>
      match npReshape2 a r c with
      | some m => reshapeFold r c rest (dictInsert n m acc)
      | none => .error ("cannot reshape array " ++ n)

/-- `np.sqrt(xvel**2 + yvel**2)`, elementwise on equal-shaped arrays
(`v**2` written as `v * v` so the definition evaluates by reduction). -/
def magnitudeMat (sq : Scalar → Scalar) (xv yv : Mat) : Mat :=
  List.zipWith (fun rx ry => List.zipWith (fun a b => sq (a * a + b * b)) rx ry) xv yv

/-- `clover_vis.py` lines 66-70 / `visualize_V2.py` lines 64-68: if both
`'x_vel'` and `'y_vel'` are in the point-data dict, store their combined
magnitude under `'velocity_magnitude'`; otherwise leave the dict alone. -/
def addVelocityMagnitude (sq : Scalar → Scalar)
    (pd : List (String × Mat)) : List (String × Mat) :=
  match dictLookup "x_vel" pd, dictLookup "y_vel" pd with
  | some xv, some yv =>
      dictInsert "velocity_magnitude" (magnitudeMat sq xv yv) pd
  | _, _ => pd

/-- `CloverVisualizer.read_vtk_file` (clover_vis.py): extract the cell
arrays (reshaped to `(ny-1, nx-1)`), then the point arrays (reshaped to
`(ny, nx)`), then compute the velocity magnitude once after the loops. -/
def read_vtk_file (sq : Scalar → Scalar) (g : RawGrid) :
    Except String ReadResult :=
  let ny : Int := g.yCoords.length
  let nx : Int := g.xCoords.length
  match reshapeFold (ny - 1) (nx - 1) g.cellArrays [] with
  | .error e => .error e
  | .ok cd =>
      match reshapeFold ny nx g.pointArrays [] with
      | .error e => .error e
      | .ok pd =>
          .ok { xCoords := g.xCoords, yCoords := g.yCoords, cellData := cd,
                pointData := addVelocityMagnitude sq pd }

/-- The point-array loop of `CloverLeafVisualizer.read_vtk_file`
(visualize_V2.py): the magnitude check runs inside the loop, after every
insertion. -/
def reshapeFoldV2 (sq : Scalar → Scalar) (r c : Int) :
    List (String × Vec) → List (String × Mat) →
    Except String (List (String × Mat))
  | [], acc => .ok acc
  | (n, a) :: rest, acc =>
      match npReshape2 a r c with
      | some m =>
          reshapeFoldV2 sq r c rest (addVelocityMagnitude sq (dictInsert n m acc))
      | none => .error ("cannot reshape array " ++ n)

/-- `CloverLeafVisualizer.read_vtk_file` (visualize_V2.py): identical to
`read_vtk_file` except that the velocity-magnitude computation is
performed inside the point-array loop on every iteration. -/
def read_vtk_file_V2 (sq : Scalar → Scalar) (g : RawGrid) :
    Except String ReadResult :=
  let ny : Int := g.yCoords.length
  let nx : Int := g.xCoords.length
  match reshapeFold (ny - 1) (nx - 1) g.cellArrays [] with
  | .error e => .error e
  | .ok cd =>
      match reshapeFoldV2 sq ny nx g.pointArrays [] with
      | .error e => .error e
      | .ok pd =>
          .ok { xCoords := g.xCoords, yCoords := g.yCoords, cellData := cd,
                pointData := pd }

/-- Python's `"%04d" % n` / f-string `{n:04d}`: decimal digits of `n`,
left-padded with zeros to at least four characters. -/
def pad4 (n : Nat) : String :=
  let s := toString n
  String.mk (List.replicate (4 - s.length) '0') ++ s

/-- The NPY file name `f"timestep_{timestep:04d}.npy"` used by
`save_timestep_data`. -/
def bundleFilename (timestep : Nat) : String :=
  "timestep_" ++ pad4 timestep ++ ".npy"

/-- The per-timestep NPY artifact: the target file name and the stacked
`[5, ny, nx]` array handed to `np.save`. -/
structure Bundle where
  filename : String
  stack : List Mat
deriving DecidableEq

/-- `CloverVisualizer.save_timestep_data`: broadcast the axes to 2-D, look
up the two velocity components and the magnitude (a missing key raises
`KeyError`), stack the five arrays in the fixed order
`[magnitude, xvel, yvel, x_coords_2d, y_coords_2d]` and write the file.
The write is modelled by returning the `Bundle`; any exception before it
(`KeyError`, `np.stack` shape error) means no file is written. -/
def save_timestep_data (d : ReadResult) (timestep : Nat) :
    Except String Bundle :=
  let x2d := xCoords2d d.xCoords d.yCoords.length
  let y2d := yCoords2d d.yCoords d.xCoords.length
  match dictLookup "x_vel" d.pointData with
  | none => .error "KeyError: x_vel"
  | some xvel =>
      match dictLookup "y_vel" d.pointData with
      | none => .error "KeyError: y_vel"
      | some yvel =>
          match dictLookup "velocity_magnitude" d.pointData with
          | none => .error "KeyError: velocity_magnitude"
          | some magnitude =>
              match npStack [magnitude, xvel, yvel, x2d, y2d] with
              | .error e => .error e
              | .ok stack => .ok { filename := bundleFilename timestep, stack := stack }

/-- One file of the input directory: its name (as globbed) and the data
the VTK reader produces for it. -/
structure VFile where
  name : String
  grid : RawGrid
deriving DecidableEq

/-- Python string comparison `a <= b`: lexicographic on code points. -/
def strLe (a b : List Char) : Bool :=
  match a, b with
  | [], _ => true
  | _ :: _, [] => false
  | x :: xs, y :: ys =>
      if x = y then strLe xs ys else decide (x.toNat < y.toNat)

/-- `sorted(list(self.input_dir.glob("*.vtk")))`: Python's stable sort
under `Path` comparison, which for files of one directory is plain
lexicographic string comparison of the names. -/
def lexSort (files : List VFile) : List VFile :=
  List.insertionSort (fun a b => strLe a.name.data b.name.data = true) files

/-- The `for i, vtk_file in enumerate(vtk_files)` loop of
`process_all_files`: read each file and save it under its position `i`
in the sorted list; an exception aborts the run. -/
def processFrom (sq : Scalar → Scalar) :
    Nat → List VFile → Except String (List Bundle)
  | _, [] => .ok []
  | i, f :: rest =>
      match read_vtk_file sq f.grid with
      | .error e => .error e
      | .ok d =>
          match save_timestep_data d i with
          | .error e => .error e
          | .ok b =>
              match processFrom sq (i + 1) rest with
              | .error e => .error e
              | .ok bs => .ok (b :: bs)

/-- `CloverVisualizer.process_all_files`: glob the directory (the input
list, in arbitrary filesystem enumeration order), sort, and process each
file under its enumeration index. -/
def process_all_files (sq : Scalar → Scalar) (files : List VFile) :
    Except String (List Bundle) :=
  processFrom sq 0 (lexSort files)

/-- Decimal value of a digit string (Python `int` on validated digits). -/
def digitsVal (cs : List Char) : Nat :=
  cs.foldl (fun a c => 10 * a + (c.toNat - '0'.toNat)) 0

/-- Python `int(s)` on the token strings appearing in filenames: an
optional sign followed by at least one digit; anything else raises
`ValueError` (`none`).  (Whitespace-padded and underscore-grouped forms,
which Python also accepts, do not occur in filename tokens.) -/
def pyIntOfChars (cs0 : List Char) : Option Int :=
  let core : List Char → Int → Option Int := fun cs sgn =>
    if cs ≠ [] ∧ cs.all Char.isDigit then some (sgn * digitsVal cs) else none
  match cs0 with
  | '+' :: cs => core cs 1
  | '-' :: cs => core cs (-1)
  | cs => core cs 1

/-- Python `s.split(sep)` for a single-character separator: every
occurrence splits, empty pieces are kept (`"".split('.') == ['']`,
`".x.".split('.') == ['', 'x', '']`). -/
def pySplit (sep : Char) : List Char → List (List Char)
  | [] => [[]]
  | c :: rest =>
      if c = sep then [] :: pySplit sep rest
      else
        match pySplit sep rest with
        | h :: t => (c :: h) :: t
        | [] => [[c]]

/-- The `get_timestep` key of `CloverLeafAnalyzer._find_vtk_files`: split
the filename on `'.'`; with at least five parts, parse the second-to-last
as an int (`ValueError` → `0`); otherwise `0`. -/
def get_timestep (filename : String) : Int :=
  let parts := pySplit '.' filename.data
  if 5 ≤ parts.length then
    match pyIntOfChars ((parts.reverse.drop 1).headD []) with
    | some n => n
    | none => 0
  else 0

/-- `CloverLeafAnalyzer._find_vtk_files`: the globbed files (input list,
arbitrary enumeration order) stably sorted by the parsed timestep key. -/
def find_vtk_files (files : List String) : List String :=
  List.insertionSort (fun a b => get_timestep a ≤ get_timestep b) files

/-! ### The solver-log parser (`CloverLeafAnalyzer._parse_output_file`)

The parser applies `re.finditer` with the fixed pattern
`Time\s+(\d+\.\d+)\s+Volume\s+Mass\s+Density\s+Pressure\s+Internal
Energy\s+Kinetic Energy\s+Total Energy\s+step:\s+(\d+)` followed by seven
`\s+(\S+)` groups.  Because every greedy repetition in the pattern is
followed by a token its own class cannot match, the regex is equivalent
to the deterministic greedy scanner below, and `finditer` to scanning for
the leftmost match, emitting it, and resuming after its end. -/

/-- Python's `\s` class (ASCII range). -/
def isPySpace (c : Char) : Bool :=
  c = ' ' || c = '\t' || c = '\n' || c = '\r' || c = '\x0b' || c = '\x0c'

/-- Match a literal string, returning the remaining input. -/
def matchLit : List Char → List Char → Option (List Char)
  | [], rest => some rest
  | _ :: _, [] => none
  | c :: cs, d :: ds => if d = c then matchLit cs ds else none

/-- Match `\s+` greedily. -/
def matchWs1 : List Char → Option (List Char)
  | [] => none
  | c :: rest =>
      if isPySpace c then some (rest.dropWhile isPySpace) else none

/-- Match `\d+` greedily, returning the digits and the remaining input. -/
def matchDigits1 (cs : List Char) : Option (List Char × List Char) :=
  let ds := cs.takeWhile Char.isDigit
  if ds = [] then none else some (ds, cs.drop ds.length)

/-- Match `\S+` greedily, returning the token and the remaining input. -/
def matchNonWs1 (cs : List Char) : Option (List Char × List Char) :=
  let ds := cs.takeWhile (fun c => !isPySpace c)
  if ds = [] then none else some (ds, cs.drop ds.length)

/-- One raw regex match: the two halves of the `(\d+\.\d+)` time group,
the `(\d+)` step group, and the seven `(\S+)` value groups. -/
structure RawBlock where
  timeInt : List Char
  timeFrac : List Char
  stepDigits : List Char
  g1 : List Char
  g2 : List Char
  g3 : List Char
  g4 : List Char
  g5 : List Char
  g6 : List Char
  g7 : List Char
deriving DecidableEq

/-- Match a sequence of `\s+<literal>` steps (the fixed header words of
the pattern between the time group and the step number). -/
def matchLitsWs (lits : List (List Char)) (cs : List Char) :
    Option (List Char) :=
  lits.foldl (fun acc lit => acc.bind (fun r => (matchWs1 r).bind (matchLit lit)))
    (some cs)

/-- Match `n` repetitions of `\s+(\S+)`, collecting the groups. -/
def matchGroups : Nat → List Char → Option (List (List Char) × List Char)
  | 0, cs => some ([], cs)
  | n + 1, cs =>
      (matchWs1 cs).bind fun cs1 =>
      (matchNonWs1 cs1).bind fun p =>
      (matchGroups n p.2).map fun q => (p.1 :: q.1, q.2)

/-- Attempt the block pattern at the start of the input. -/
def matchBlock (cs : List Char) : Option (RawBlock × List Char) :=
  (matchLit "Time".data cs).bind fun c1 =>
  (matchWs1 c1).bind fun c2 =>
  (matchDigits1 c2).bind fun ti =>
  (matchLit ['.'] ti.2).bind fun c3 =>
  (matchDigits1 c3).bind fun tf =>
  (matchLitsWs ["Volume".data, "Mass".data, "Density".data, "Pressure".data,
      "Internal Energy".data, "Kinetic Energy".data, "Total Energy".data,
      "step:".data] tf.2).bind fun c4 =>
  (matchWs1 c4).bind fun c5 =>
  (matchDigits1 c5).bind fun st =>
  (matchGroups 7 st.2).bind fun gs =>
  match gs.1 with
  | [g1, g2, g3, g4, g5, g6, g7] =>
      some (⟨ti.1, tf.1, st.1, g1, g2, g3, g4, g5, g6, g7⟩, gs.2)
  | _ => none

/-- `re.finditer`: left-to-right scan for non-overlapping matches.  The
fuel bounds the number of scan steps; every step consumes at least one
character, so fuel equal to the input length never runs out. -/
def findBlocksAux : Nat → List Char → List RawBlock
  | 0, _ => []
  | _, [] => []
  | fuel + 1, c :: rest =>
      match matchBlock (c :: rest) with
      | some (b, rest') => b :: findBlocksAux fuel rest'
      | none => findBlocksAux fuel rest

/-- All regex matches of the block pattern in the content. -/
def findBlocks (cs : List Char) : List RawBlock :=
  findBlocksAux cs.length cs

/-- `10 ^ n` on `ℚ` by explicit recursion (evaluates by reduction). -/
def pow10 : Nat → ℚ
  | 0 => 1
  | n + 1 => 10 * pow10 n

/-- `float(s)` on a `\S+` token: optional sign, a decimal mantissa with
optional fraction, and an optional exponent; the whole token must be
consumed.  Anything else raises `ValueError` (`none`).  Python's
`inf`/`nan` spellings and underscore-grouped digits lie outside the `ℚ`
value domain modelled here and do not occur in solver logs. -/
def parseExpPart (cs : List Char) : Option Int :=
  match cs with
  | [] => some 0
  | e :: rest =>
      if e = 'e' ∨ e = 'E' then
        let (sgn, rest') : Int × List Char :=
          match rest with
          | '+' :: r => (1, r)
          | '-' :: r => (-1, r)
          | r => (1, r)
        let ds := rest'.takeWhile Char.isDigit
        if ds = [] ∨ rest'.drop ds.length ≠ [] then none
        else some (sgn * digitsVal ds)
      else none

/-- See `parseExpPart`; the mantissa part of `float(s)`. -/
def pyFloatOfChars (cs0 : List Char) : Option ℚ :=
  let (sgn, cs) : ℚ × List Char :=
    match cs0 with
    | '+' :: r => (1, r)
    | '-' :: r => (-1, r)
    | r => (1, r)
  let ip := cs.takeWhile Char.isDigit
  let cs1 := cs.drop ip.length
  match cs1 with
  | '.' :: r =>
      let fp := r.takeWhile Char.isDigit
      if ip = [] ∧ fp = [] then none
      else
        match parseExpPart (r.drop fp.length) with
        | some e =>
            some (sgn * ((digitsVal ip : ℚ) + (digitsVal fp : ℚ) / pow10 fp.length) *
              (if 0 ≤ e then pow10 e.toNat else 1 / pow10 (-e).toNat))
        | none => none
  | rest =>
      if ip = [] then none
      else
        match parseExpPart rest with
        | some e =>
            some (sgn * (digitsVal ip : ℚ) *
              (if 0 ≤ e then pow10 e.toNat else 1 / pow10 (-e).toNat))
        | none => none

/-- One value of the `timestep_data` mapping. -/
structure StepEntry where
  time : ℚ
  volume : ℚ
  mass : ℚ
  density : ℚ
  pressure : ℚ
  internal_energy : ℚ
  kinetic_energy : ℚ
  total_energy : ℚ
deriving DecidableEq

/-- `float`/`int` conversion of one raw match into its dict entry; `none`
models the `ValueError` thrown when a `\S+` group is not a float. -/
def convertBlock (b : RawBlock) : Option (Nat × StepEntry) := do
  let v1 ← pyFloatOfChars b.g1
  let v2 ← pyFloatOfChars b.g2
  let v3 ← pyFloatOfChars b.g3
  let v4 ← pyFloatOfChars b.g4
  let v5 ← pyFloatOfChars b.g5
  let v6 ← pyFloatOfChars b.g6
  let v7 ← pyFloatOfChars b.g7
  some (digitsVal b.stepDigits,
    { time := (digitsVal b.timeInt : ℚ) + (digitsVal b.timeFrac : ℚ) / pow10 b.timeFrac.length,
      volume := v1, mass := v2, density := v3, pressure := v4,
      internal_energy := v5, kinetic_energy := v6, total_energy := v7 })

/-- The `for match in matches` loop: build the dict entry by entry; a
conversion error anywhere is caught by the surrounding `except`, which
returns the empty dict instead. -/
def convertBlocks (acc : List (Nat × StepEntry)) :
    List RawBlock → List (Nat × StepEntry)
  | [] => acc
  | b :: rest =>
      match convertBlock b with
      | some (s, e) => convertBlocks (dictInsert s e acc) rest
      | none => []

/-- `CloverLeafAnalyzer._parse_output_file` on the file's content: find
all regex matches, convert each into an entry of the step-keyed mapping;
any exception makes the function return the empty mapping.  It always
returns a mapping, never raises. -/
def parse_output_file (content : String) : List (Nat × StepEntry) :=
  convertBlocks [] (findBlocks content.data)

/-- A solver-log fragment with two well-formed blocks (steps 1 and 2). -/
def logContentOk : String :=
  "Time 0.1\n Volume Mass Density Pressure Internal Energy Kinetic Energy Total Energy\n step: 1 0.5 1.0 2.0 3.0 4.0 5.0 9.0\nTime 0.25\n Volume Mass Density Pressure Internal Energy Kinetic Energy Total Energy\n step: 2 1.5 2.5 3.5 4.5 5.5 6.5 7.5\n"

/-- The same fragment, except that the last token of the second block
(`abc`) matches the regex group `\S+` but is not a float. -/
def logContentBad : String :=
  "Time 0.1\n Volume Mass Density Pressure Internal Energy Kinetic Energy Total Energy\n step: 1 0.5 1.0 2.0 3.0 4.0 5.0 9.0\nTime 0.25\n Volume Mass Density Pressure Internal Energy Kinetic Energy Total Energy\n step: 2 1.5 2.5 3.5 4.5 5.5 6.5 abc\n"

/-- Invariant relating the loop state of the V2 reader (`d1`) to the loop
state of the clover_vis reader (`d2`): away from the derived key the dicts
agree, and at the derived key `d1` already holds what applying the
derived-field stage to `d2` would produce. -/
def Agree (sq : Scalar → Scalar) (d1 d2 : List (String × Mat)) : Prop :=
  (∀ k, k ≠ "velocity_magnitude" → dictLookup k d1 = dictLookup k d2) ∧
  dictLookup "velocity_magnitude" d1 =
    dictLookup "velocity_magnitude" (addVelocityMagnitude sq d2)

instance : Inhabited VFile := ⟨⟨"", ⟨[], [], [], []⟩⟩⟩

instance : Inhabited Bundle := ⟨⟨"", []⟩⟩

/-! ### Basic lemmas about the dict model and the numpy primitives -/

theorem dictLookup_dictInsert {κ α : Type} [DecidableEq κ] (k k' : κ) (v : α)
    (d : List (κ × α)) :
    dictLookup k' (dictInsert k v d) = if k = k' then some v else dictLookup k' d := by
  induction d with
  | nil =>
      by_cases h : k = k' <;> simp [dictInsert, dictLookup, h]
  | cons p rest ih =>
      obtain ⟨k'', v''⟩ := p
      by_cases h1 : k'' = k
      · subst h1
        by_cases h2 : k'' = k' <;> simp [dictInsert, dictLookup, h2]
      · by_cases h2 : k'' = k'
        · subst h2
          have : ¬ k = k'' := fun h => h1 h.symm
          simp [dictInsert, dictLookup, h1, this]
        · simp [dictInsert, dictLookup, h1, h2, ih]

theorem mem_dictInsert {κ α : Type} [DecidableEq κ] {k : κ} {v : α}
    {d : List (κ × α)} {p : κ × α} (h : p ∈ dictInsert k v d) :
    p = (k, v) ∨ p ∈ d := by
  induction d with
  | nil => simpa [dictInsert] using h
  | cons q rest ih =>
      obtain ⟨k'', v''⟩ := q
      by_cases h1 : k'' = k
      · simp only [dictInsert, if_pos h1, List.mem_cons] at h
        rcases h with h | h
        · exact Or.inl h
        · exact Or.inr (List.mem_cons_of_mem _ h)
      · simp only [dictInsert, if_neg h1, List.mem_cons] at h
        rcases h with h | h
        · exact Or.inr (by simp [h])
        · rcases ih h with h' | h'
          · exact Or.inl h'
          · exact Or.inr (List.mem_cons_of_mem _ h')

theorem dictLookup_mem {κ α : Type} [DecidableEq κ] {k : κ} {v : α}
    {d : List (κ × α)} (h : dictLookup k d = some v) : (k, v) ∈ d := by
  induction d with
  | nil => simp [dictLookup] at h
  | cons q rest ih =>
      obtain ⟨k'', v''⟩ := q
      by_cases h1 : k'' = k
      · subst h1
        simp [dictLookup] at h
        simp [h]
      · simp [dictLookup, h1] at h
        exact List.mem_cons_of_mem _ (ih h)

theorem hasShape_iff {m : Mat} {r c : Nat} :
    hasShape m r c = true ↔ m.length = r ∧ ∀ row ∈ m, row.length = c := by
  simp [hasShape, List.all_eq_true]

theorem hasShape_of_shapeOf_eq {m1 m2 : Mat} {r c : Nat}
    (h : shapeOf m1 = shapeOf m2) (h1 : hasShape m1 r c = true) :
    hasShape m2 r c = true := by
  obtain ⟨hl, hm⟩ := Prod.mk.injEq .. ▸ h
  rw [hasShape_iff] at h1 ⊢
  obtain ⟨hlen, hrows⟩ := h1
  constructor
  · rw [← hl] at *
    simpa [← List.length_map m2 List.length, ← hm, List.length_map] using hlen
  · intro row hrow
    have : row.length ∈ m2.map List.length := List.mem_map_of_mem _ hrow
    rw [← hm] at this
    obtain ⟨row1, hrow1, heq⟩ := List.mem_map.1 this
    rw [← heq]
    exact hrows row1 hrow1

theorem chunkRows_shape (r c : Nat) (flat : Vec) (h : flat.length = r * c) :
    hasShape (chunkRows r c flat) r c = true := by
  rw [hasShape_iff]
  constructor
  · simp [chunkRows]
  · intro row hrow
    simp only [chunkRows, List.mem_map, List.mem_range] at hrow
    obtain ⟨i, hi, rfl⟩ := hrow
    have hic : i * c + c ≤ r * c := by
      have : (i + 1) * c ≤ r * c := Nat.mul_le_mul_right c (by omega)
      calc i * c + c = (i + 1) * c := by ring
        _ ≤ r * c := this
    simp [List.length_take, List.length_drop, h]
    omega

theorem entry_chunkRows (r c : Nat) (flat : Vec) (i j : Nat)
    (h : flat.length = r * c) (hi : i < r) (hj : j < c) :
    entry (chunkRows r c flat) i j = flat.getD (i * c + j) 0 := by
  have hrow : (chunkRows r c flat).getD i [] = (flat.drop (i * c)).take c := by
    have hlen : i < (chunkRows r c flat).length := by simp [chunkRows]; omega
    rw [List.getD_eq_getElem _ _ hlen]
    simp [chunkRows]
  have hflat : i * c + j < flat.length := by
    have : (i + 1) * c ≤ r * c := Nat.mul_le_mul_right c (by omega)
    have : i * c + c ≤ r * c := by
      calc i * c + c = (i + 1) * c := by ring
        _ ≤ r * c := this
    omega
  rw [entry, hrow]
  have h1 : j < ((flat.drop (i * c)).take c).length := by
    simp [List.length_take, List.length_drop]
    omega
  have h2 : i * c + j < flat.length := hflat
  rw [List.getD_eq_getElem _ _ h1, List.getD_eq_getElem _ _ h2]
  have e1 : (List.take c (List.drop (i * c) flat))[j]? = flat[i * c + j]? := by
    rw [List.getElem?_take, if_pos hj, List.getElem?_drop]
  rw [List.getElem?_eq_getElem h1, List.getElem?_eq_getElem h2] at e1
  exact Option.some.inj e1

theorem entry_zipWith (f : Scalar → Scalar → Scalar) (xs ys : Vec) (j : Nat)
    (hx : j < xs.length) (hy : j < ys.length) :
    (List.zipWith f xs ys).getD j 0 = f (xs.getD j 0) (ys.getD j 0) := by
  have hz : j < (List.zipWith f xs ys).length := by
    simp [List.length_zipWith]; omega
  rw [List.getD_eq_getElem _ _ hz, List.getD_eq_getElem _ _ hx,
    List.getD_eq_getElem _ _ hy]
  exact List.getElem_zipWith

theorem magnitudeMat_shape (sq : Scalar → Scalar) {xv yv : Mat} {r c : Nat}
    (hx : hasShape xv r c = true) (hy : hasShape yv r c = true) :
    hasShape (magnitudeMat sq xv yv) r c = true := by
  rw [hasShape_iff] at hx hy ⊢
  obtain ⟨hxl, hxr⟩ := hx
  obtain ⟨hyl, hyr⟩ := hy
  constructor
  · simp [magnitudeMat, List.length_zipWith, hxl, hyl]
  · intro row hrow
    simp only [magnitudeMat] at hrow
    rw [List.mem_iff_getElem] at hrow
    obtain ⟨n, hn, rfl⟩ := hrow
    rw [List.getElem_zipWith]
    have hn' : n < xv.length := by
      simp [List.length_zipWith] at hn; omega
    have hn'' : n < yv.length := by
      simp [List.length_zipWith] at hn; omega
    simp [List.length_zipWith, hxr _ (List.getElem_mem hn'),
      hyr _ (List.getElem_mem hn'')]

theorem entry_magnitudeMat (sq : Scalar → Scalar) {xv yv : Mat} {r c : Nat}
    (hx : hasShape xv r c = true) (hy : hasShape yv r c = true)
    (i j : Nat) (hi : i < r) (hj : j < c) :
    entry (magnitudeMat sq xv yv) i j =
      sq (entry xv i j * entry xv i j + entry yv i j * entry yv i j) := by
  rw [hasShape_iff] at hx hy
  obtain ⟨hxl, hxr⟩ := hx
  obtain ⟨hyl, hyr⟩ := hy
  have hil : i < (magnitudeMat sq xv yv).length := by
    simp [magnitudeMat, List.length_zipWith]; omega
  have hix : i < xv.length := by omega
  have hiy : i < yv.length := by omega
  have hrow : (magnitudeMat sq xv yv).getD i [] =
      List.zipWith (fun a b => sq (a * a + b * b)) (xv.getD i []) (yv.getD i []) := by
    rw [List.getD_eq_getElem _ _ hil, List.getD_eq_getElem _ _ hix,
      List.getD_eq_getElem _ _ hiy]
    exact List.getElem_zipWith
  rw [entry, hrow]
  have hjx : j < (xv.getD i []).length := by
    rw [List.getD_eq_getElem _ _ hix]
    rw [hxr _ (List.getElem_mem hix)]; exact hj
  have hjy : j < (yv.getD i []).length := by
    rw [List.getD_eq_getElem _ _ hiy]
    rw [hyr _ (List.getElem_mem hiy)]; exact hj
  rw [entry_zipWith _ _ _ _ hjx hjy]
  rfl

theorem npReshape2_some_shape {flat : Vec} {r c : Int} {m : Mat}
    (hr : 0 ≤ r) (hc : 0 ≤ c) (h : npReshape2 flat r c = some m) :
    flat.length = r.toNat * c.toNat ∧ hasShape m r.toNat c.toNat = true := by
  unfold npReshape2 at h
  rw [if_pos ⟨hr, hc⟩] at h
  split at h
  · next hlen =>
      cases h
      exact ⟨hlen, chunkRows_shape _ _ _ hlen⟩
  · cases h

theorem npReshape2_none_of_length {flat : Vec} {r c : Int}
    (hr : 0 ≤ r) (hc : 0 ≤ c) (h : flat.length ≠ r.toNat * c.toNat) :
    npReshape2 flat r c = none := by
  unfold npReshape2
  rw [if_pos ⟨hr, hc⟩, if_neg h]

theorem reshapeFold_shapes {r c : Int} (hr : 0 ≤ r) (hc : 0 ≤ c) :
    ∀ (arrs : List (String × Vec)) (acc pd : List (String × Mat)),
    (∀ p ∈ acc, hasShape p.2 r.toNat c.toNat = true) →
    reshapeFold r c arrs acc = .ok pd →
    ∀ p ∈ pd, hasShape p.2 r.toNat c.toNat = true := by
  intro arrs
  induction arrs with
  | nil =>
      intro acc pd hacc h
      cases h
      exact hacc
  | cons hd tl ih =>
      intro acc pd hacc h
      unfold reshapeFold at h
      cases hre : npReshape2 hd.2 r c with
      | none => rw [hre] at h; cases h
      | some m =>
          rw [hre] at h
          refine ih (dictInsert hd.1 m acc) pd ?_ h
          intro p hp
          rcases mem_dictInsert hp with h' | h'
          · rw [h']
            exact (npReshape2_some_shape hr hc hre).2
          · exact hacc p h'

theorem reshapeFold_error {r c : Int} :
    ∀ (arrs : List (String × Vec)) (acc : List (String × Mat)),
    (∃ p ∈ arrs, npReshape2 p.2 r c = none) →
    ∃ e, reshapeFold r c arrs acc = .error e := by
  intro arrs
  induction arrs with
  | nil =>
      intro acc h
      simp at h
  | cons hd tl ih =>
      intro acc h
      unfold reshapeFold
      cases hre : npReshape2 hd.2 r c with
      | none => exact ⟨_, rfl⟩
      | some m =>
          obtain ⟨p, hp, hnone⟩ := h
          rcases List.mem_cons.1 hp with h' | h'
          · rw [h'] at hnone
            rw [hnone] at hre
            cases hre
          · exact ih (dictInsert hd.1 m acc) ⟨p, h', hnone⟩

/-! ### The derived-field stage -/

theorem lookup_addVelocityMagnitude_ne (sq : Scalar → Scalar)
    (d : List (String × Mat)) (k : String) (hk : k ≠ "velocity_magnitude") :
    dictLookup k (addVelocityMagnitude sq d) = dictLookup k d := by
  unfold addVelocityMagnitude
  cases hx : dictLookup "x_vel" d with
  | none => rfl
  | some xv =>
      cases hy : dictLookup "y_vel" d with
      | none => rfl
      | some yv =>
          rw [dictLookup_dictInsert, if_neg (fun h => hk h.symm)]

theorem lookup_addVelocityMagnitude_vm (sq : Scalar → Scalar)
    (d : List (String × Mat)) :
    dictLookup "velocity_magnitude" (addVelocityMagnitude sq d) =
      match dictLookup "x_vel" d, dictLookup "y_vel" d with
      | some xv, some yv => some (magnitudeMat sq xv yv)
      | _, _ => dictLookup "velocity_magnitude" d := by
  unfold addVelocityMagnitude
  cases hx : dictLookup "x_vel" d with
  | none => rfl
  | some xv =>
      cases hy : dictLookup "y_vel" d with
      | none => rfl
      | some yv =>
          rw [dictLookup_dictInsert, if_pos rfl]

theorem mem_addVelocityMagnitude {sq : Scalar → Scalar}
    {d : List (String × Mat)} {p : String × Mat}
    (h : p ∈ addVelocityMagnitude sq d) :
    (∃ xv yv, dictLookup "x_vel" d = some xv ∧ dictLookup "y_vel" d = some yv ∧
      p = ("velocity_magnitude", magnitudeMat sq xv yv)) ∨ p ∈ d := by
  unfold addVelocityMagnitude at h
  cases hx : dictLookup "x_vel" d with
  | none => rw [hx] at h; exact Or.inr h
  | some xv =>
      cases hy : dictLookup "y_vel" d with
      | none => rw [hx, hy] at h; exact Or.inr h
      | some yv =>
          rw [hx, hy] at h
          rcases mem_dictInsert h with h' | h'
          · exact Or.inl ⟨xv, yv, rfl, rfl, h'⟩
          · exact Or.inr h'

theorem Agree.nil (sq : Scalar → Scalar) : Agree sq [] [] := by
  constructor
  · intro k _
    rfl
  · rw [lookup_addVelocityMagnitude_vm]
    rfl

theorem Agree.insert {sq : Scalar → Scalar} {acc1 acc2 : List (String × Mat)}
    (h : Agree sq acc1 acc2) (n : String) (m : Mat) :
    Agree sq (addVelocityMagnitude sq (dictInsert n m acc1))
      (dictInsert n m acc2) := by
  obtain ⟨h1, h2⟩ := h
  have hcomp : ∀ k, k ≠ "velocity_magnitude" →
      dictLookup k (dictInsert n m acc1) = dictLookup k (dictInsert n m acc2) := by
    intro k hk
    rw [dictLookup_dictInsert, dictLookup_dictInsert]
    by_cases hnk : n = k
    · simp [hnk]
    · simp [hnk, h1 k hk]
  constructor
  · intro k hk
    rw [lookup_addVelocityMagnitude_ne _ _ _ hk]
    exact hcomp k hk
  · have helse :
        dictLookup "x_vel" (dictInsert n m acc2) = none ∨
          dictLookup "y_vel" (dictInsert n m acc2) = none →
        dictLookup "velocity_magnitude" (dictInsert n m acc1) =
          dictLookup "velocity_magnitude" (dictInsert n m acc2) := by
      intro hor
      by_cases hnvm : n = "velocity_magnitude"
      · rw [dictLookup_dictInsert, if_pos hnvm, dictLookup_dictInsert, if_pos hnvm]
      · rw [dictLookup_dictInsert, if_neg hnvm, dictLookup_dictInsert,
          if_neg hnvm, h2, lookup_addVelocityMagnitude_vm]
        have hmono : dictLookup "x_vel" acc2 = none ∨
            dictLookup "y_vel" acc2 = none := by
          rcases hor with hk | hk
          · rw [dictLookup_dictInsert] at hk
            by_cases hn : n = "x_vel"
            · rw [if_pos hn] at hk; cases hk
            · rw [if_neg hn] at hk; exact Or.inl hk
          · rw [dictLookup_dictInsert] at hk
            by_cases hn : n = "y_vel"
            · rw [if_pos hn] at hk; cases hk
            · rw [if_neg hn] at hk; exact Or.inr hk
        cases hx3 : dictLookup "x_vel" acc2 with
        | none => rfl
        | some xv' =>
            cases hy3 : dictLookup "y_vel" acc2 with
            | none => rfl
            | some yv' =>
                rw [hx3, hy3] at hmono
                rcases hmono with hk | hk <;> cases hk
    rw [lookup_addVelocityMagnitude_vm, lookup_addVelocityMagnitude_vm]
    have hx := hcomp "x_vel" (by decide)
    have hy := hcomp "y_vel" (by decide)
    rw [hx, hy]
    cases hx2 : dictLookup "x_vel" (dictInsert n m acc2) with
    | none => exact helse (Or.inl hx2)
    | some xv =>
        cases hy2 : dictLookup "y_vel" (dictInsert n m acc2) with
        | none => exact helse (Or.inr hy2)
        | some yv => rfl

/-- The V2 point-array loop against the clover_vis point-array loop: they
fail together with the same error, and on success the V2 state equals the
clover_vis state with the derived-field stage applied, as a mapping. -/
theorem reshapeFoldV2_agree (sq : Scalar → Scalar) (r c : Int) :
    ∀ (arrs : List (String × Vec)) (acc1 acc2 : List (String × Mat)),
    Agree sq acc1 acc2 →
    match reshapeFoldV2 sq r c arrs acc1, reshapeFold r c arrs acc2 with
    | .ok pd1, .ok pd2 =>
        ∀ k, dictLookup k pd1 = dictLookup k (addVelocityMagnitude sq pd2)
    | .error e1, .error e2 => e1 = e2
    | _, _ => False := by
  intro arrs
  induction arrs with
  | nil =>
      intro acc1 acc2 hagree
      obtain ⟨h1, h2⟩ := hagree
      unfold reshapeFoldV2 reshapeFold
      intro k
      by_cases hk : k = "velocity_magnitude"
      · rw [hk]
        exact h2
      · rw [lookup_addVelocityMagnitude_ne _ _ _ hk]
        exact h1 k hk
  | cons hd tl ih =>
      intro acc1 acc2 hagree
      unfold reshapeFoldV2 reshapeFold
      cases hre : npReshape2 hd.2 r c with
      | none => rfl
      | some m =>
          exact ih (addVelocityMagnitude sq (dictInsert hd.1 m acc1))
            (dictInsert hd.1 m acc2) (hagree.insert hd.1 m)

/-! ### The packer and the aggregation loop -/

theorem save_ok_spec {d : ReadResult} {t : Nat} {b : Bundle}
    (h : save_timestep_data d t = .ok b) :
    ∃ mag xv yv,
      dictLookup "velocity_magnitude" d.pointData = some mag ∧
      dictLookup "x_vel" d.pointData = some xv ∧
      dictLookup "y_vel" d.pointData = some yv ∧
      b = ⟨bundleFilename t,
        [mag, xv, yv, xCoords2d d.xCoords d.yCoords.length,
          yCoords2d d.yCoords d.xCoords.length]⟩ ∧
      ∀ m ∈ b.stack, shapeOf m = shapeOf mag := by
  cases hx : dictLookup "x_vel" d.pointData with
  | none =>
      have heq : save_timestep_data d t = .error "KeyError: x_vel" := by
        unfold save_timestep_data
        simp only [hx]
      rw [heq] at h
      cases h
  | some xv =>
      cases hy : dictLookup "y_vel" d.pointData with
      | none =>
          have heq : save_timestep_data d t = .error "KeyError: y_vel" := by
            unfold save_timestep_data
            simp only [hx, hy]
          rw [heq] at h
          cases h
      | some yv =>
          cases hm : dictLookup "velocity_magnitude" d.pointData with
          | none =>
              have heq : save_timestep_data d t =
                  .error "KeyError: velocity_magnitude" := by
                unfold save_timestep_data
                simp only [hx, hy, hm]
              rw [heq] at h
              cases h
          | some mag =>
              by_cases hall :
                  ([xv, yv, xCoords2d d.xCoords d.yCoords.length,
                    yCoords2d d.yCoords d.xCoords.length].all
                    (fun bb => shapeOf bb == shapeOf mag)) = true
              · have heq : save_timestep_data d t =
                    .ok ⟨bundleFilename t,
                      [mag, xv, yv, xCoords2d d.xCoords d.yCoords.length,
                        yCoords2d d.yCoords d.xCoords.length]⟩ := by
                  unfold save_timestep_data npStack
                  simp only [hx, hy, hm, if_pos hall]
                rw [heq] at h
                cases h
                refine ⟨mag, xv, yv, rfl, rfl, rfl, rfl, ?_⟩
                intro m hmem
                simp only [List.all_cons, List.all_nil, Bool.and_true,
                  Bool.and_eq_true, beq_iff_eq] at hall
                simp only [List.mem_cons, List.not_mem_nil, or_false] at hmem
                rcases hmem with rfl | rfl | rfl | rfl | rfl
                · rfl
                · exact hall.1
                · exact hall.2.1
                · exact hall.2.2.1
                · exact hall.2.2.2
              · have heq : save_timestep_data d t =
                    .error "all input arrays must have the same shape" := by
                  unfold save_timestep_data npStack
                  simp only [hx, hy, hm, if_neg hall]
                rw [heq] at h
                cases h

theorem processFrom_ok {sq : Scalar → Scalar} :
    ∀ (fs : List VFile) (i : Nat) (bs : List Bundle),
    processFrom sq i fs = .ok bs →
    bs.length = fs.length ∧
    ∀ j, j < bs.length →
      ∃ d, read_vtk_file sq ((fs.getD j default).grid) = .ok d ∧
        save_timestep_data d (i + j) = .ok (bs.getD j default) := by
  intro fs
  induction fs with
  | nil =>
      intro i bs h
      cases h
      exact ⟨rfl, by intro j hj; simp at hj⟩
  | cons f rest ih =>
      intro i bs h
      cases hre : read_vtk_file sq f.grid with
      | error e =>
          have heq : processFrom sq i (f :: rest) = .error e := by
            unfold processFrom
            simp only [hre]
          rw [heq] at h
          cases h
      | ok d =>
          cases hsv : save_timestep_data d i with
          | error e =>
              have heq : processFrom sq i (f :: rest) = .error e := by
                unfold processFrom
                simp only [hre, hsv]
              rw [heq] at h
              cases h
          | ok b =>
              cases hpr : processFrom sq (i + 1) rest with
              | error e =>
                  have heq : processFrom sq i (f :: rest) = .error e := by
                    unfold processFrom
                    simp only [hre, hsv, hpr]
                  rw [heq] at h
                  cases h
              | ok bs' =>
                  have heq : processFrom sq i (f :: rest) = .ok (b :: bs') := by
                    unfold processFrom
                    simp only [hre, hsv, hpr]
                  rw [heq] at h
                  cases h
                  obtain ⟨hlen, hspec⟩ := ih (i + 1) bs' hpr
                  constructor
                  · simp [hlen]
                  · intro j hj
                    cases j with
                    | zero =>
                        refine ⟨d, by simpa using hre, ?_⟩
                        simpa using hsv
                    | succ j' =>
                        have hj' : j' < bs'.length := by
                          simp at hj; omega
                        obtain ⟨d', hre', hsv'⟩ := hspec j' hj'
                        refine ⟨d', by simpa using hre', ?_⟩
                        have harith : i + 1 + j' = i + (j' + 1) := by omega
                        rw [harith] at hsv'
                        simpa using hsv'

theorem processFrom_all_ok {sq : Scalar → Scalar} :
    ∀ (fs : List VFile) (i : Nat),
    (∀ f ∈ fs, ∃ d, read_vtk_file sq f.grid = .ok d ∧
      ∀ t, ∃ b, save_timestep_data d t = .ok b) →
    ∃ bs, processFrom sq i fs = .ok bs ∧ bs.length = fs.length := by
  intro fs
  induction fs with
  | nil => exact fun i _ => ⟨[], rfl, rfl⟩
  | cons f rest ih =>
      intro i hall
      obtain ⟨d, hre, hsv⟩ := hall f (List.mem_cons_self f rest)
      obtain ⟨b, hb⟩ := hsv i
      obtain ⟨bs', hpr, hlen⟩ :=
        ih (i + 1) (fun f' hf' => hall f' (List.mem_cons_of_mem _ hf'))
      refine ⟨b :: bs', ?_, by simp [hlen]⟩
      unfold processFrom
      simp only [hre, hb, hpr]

/-! ### The log-parser conversion loop -/

theorem convertBlock_key {b : RawBlock} {p : Nat × StepEntry}
    (h : convertBlock b = some p) : p.1 = digitsVal b.stepDigits := by
  simp only [convertBlock, Option.bind_eq_bind, Option.bind_eq_some] at h
  obtain ⟨v1, _, v2, _, v3, _, v4, _, v5, _, v6, _, v7, _, hp⟩ := h
  cases hp
  rfl

theorem convertBlocks_lookup_notmem :
    ∀ (bs : List RawBlock) (acc : List (Nat × StepEntry)) (k : Nat),
    (∀ b ∈ bs, (convertBlock b).isSome) →
    k ∉ bs.map (fun b => digitsVal b.stepDigits) →
    dictLookup k (convertBlocks acc bs) = dictLookup k acc := by
  intro bs
  induction bs with
  | nil => intro acc k _ _; rfl
  | cons hd tl ih =>
      intro acc k hconv hnot
      have hhd : (convertBlock hd).isSome := hconv hd (List.mem_cons_self hd tl)
      obtain ⟨p, hp⟩ := Option.isSome_iff_exists.1 hhd
      have hkey := convertBlock_key hp
      unfold convertBlocks
      rw [hp]
      obtain ⟨s, e⟩ := p
      simp only at hkey
      subst hkey
      rw [ih (dictInsert _ e acc) k
        (fun b hb => hconv b (List.mem_cons_of_mem _ hb))
        (fun hmem => hnot (List.mem_cons_of_mem _ hmem))]
      rw [dictLookup_dictInsert]
      rw [if_neg]
      intro hk
      exact hnot (by simp [hk])

theorem convertBlocks_lookup :
    ∀ (bs : List RawBlock) (acc : List (Nat × StepEntry)),
    (∀ b ∈ bs, (convertBlock b).isSome) →
    (bs.map (fun b => digitsVal b.stepDigits)).Nodup →
    ∀ b ∈ bs, ∃ e, convertBlock b = some (digitsVal b.stepDigits, e) ∧
      dictLookup (digitsVal b.stepDigits) (convertBlocks acc bs) = some e := by
  intro bs
  induction bs with
  | nil => intro acc _ _ b hb; simp at hb
  | cons hd tl ih =>
      intro acc hconv hnd b hb
      have hhd : (convertBlock hd).isSome := hconv hd (List.mem_cons_self hd tl)
      obtain ⟨p, hp⟩ := Option.isSome_iff_exists.1 hhd
      have hkey := convertBlock_key hp
      obtain ⟨s, e⟩ := p
      simp only at hkey
      subst hkey
      rw [List.map_cons, List.nodup_cons] at hnd
      rcases List.mem_cons.1 hb with rfl | hbtl
      · refine ⟨e, hp, ?_⟩
        unfold convertBlocks
        rw [hp]
        rw [convertBlocks_lookup_notmem tl (dictInsert _ e acc) _
          (fun b' hb' => hconv b' (List.mem_cons_of_mem _ hb')) hnd.1]
        rw [dictLookup_dictInsert, if_pos rfl]
      · obtain ⟨e', he', hlook⟩ := ih (dictInsert _ e acc)
          (fun b' hb' => hconv b' (List.mem_cons_of_mem _ hb')) hnd.2 b hbtl
        refine ⟨e', he', ?_⟩
        unfold convertBlocks
        rw [hp]
        exact hlook

/-! ### Coordinate broadcasting -/

theorem xCoords2d_shape (x : Vec) (ny : Nat) :
    hasShape (xCoords2d x ny) ny x.length = true := by
  rw [hasShape_iff]
  constructor
  · simp [xCoords2d]
  · intro row hrow
    rw [xCoords2d] at hrow
    rw [List.eq_of_mem_replicate hrow]

theorem yCoords2d_shape (y : Vec) (nx : Nat) :
    hasShape (yCoords2d y nx) y.length nx = true := by
  rw [hasShape_iff]
  constructor
  · simp [yCoords2d]
  · intro row hrow
    rw [yCoords2d] at hrow
    obtain ⟨c, _, rfl⟩ := List.mem_map.1 hrow
    simp

/-! ### The claims -/

/-- C1: for every snapshot whose point fields contain both `x_vel` and
`y_vel` after reshaping to `(ny, nx)`, the reader adds a point-centered
`velocity_magnitude` field `m` with `m[i,j] = sqrt(x_vel[i,j]^2 +
y_vel[i,j]^2)` for all in-range `i, j`, and the component fields are left
unchanged. -/
theorem claim_C1_velocity_magnitude (sq : Scalar → Scalar) (g : RawGrid)
    (cd pd0 : List (String × Mat)) (xv yv : Mat)
    (hcd : reshapeFold ((g.yCoords.length : Int) - 1)
      ((g.xCoords.length : Int) - 1) g.cellArrays [] = .ok cd)
    (hpd : reshapeFold (g.yCoords.length : Int) (g.xCoords.length : Int)
      g.pointArrays [] = .ok pd0)
    (hxv : dictLookup "x_vel" pd0 = some xv)
    (hyv : dictLookup "y_vel" pd0 = some yv) :
    read_vtk_file sq g =
      .ok ⟨g.xCoords, g.yCoords, cd, addVelocityMagnitude sq pd0⟩ ∧
    dictLookup "velocity_magnitude" (addVelocityMagnitude sq pd0) =
      some (magnitudeMat sq xv yv) ∧
    dictLookup "x_vel" (addVelocityMagnitude sq pd0) = some xv ∧
    dictLookup "y_vel" (addVelocityMagnitude sq pd0) = some yv ∧
    ∀ i j, i < g.yCoords.length → j < g.xCoords.length →
      entry (magnitudeMat sq xv yv) i j =
        sq (entry xv i j * entry xv i j + entry yv i j * entry yv i j) := by
  refine ⟨?_, ?_, ?_, ?_, ?_⟩
  · unfold read_vtk_file
    simp only [hcd, hpd]
  · rw [lookup_addVelocityMagnitude_vm, hxv, hyv]
  · rw [lookup_addVelocityMagnitude_ne _ _ _ (by decide)]
    exact hxv
  · rw [lookup_addVelocityMagnitude_ne _ _ _ (by decide)]
    exact hyv
  · intro i j hi hj
    have hnn : (0 : Int) ≤ (g.yCoords.length : Int) := Int.natCast_nonneg _
    have hnn' : (0 : Int) ≤ (g.xCoords.length : Int) := Int.natCast_nonneg _
    have hshapes := reshapeFold_shapes hnn hnn' g.pointArrays [] pd0
      (by intro p hp; simp at hp) hpd
    have htn : ((g.yCoords.length : Int)).toNat = g.yCoords.length :=
      Int.toNat_natCast _
    have htn' : ((g.xCoords.length : Int)).toNat = g.xCoords.length :=
      Int.toNat_natCast _
    have hxs : hasShape xv g.yCoords.length g.xCoords.length = true := by
      have := hshapes _ (dictLookup_mem hxv)
      rwa [htn, htn'] at this
    have hys : hasShape yv g.yCoords.length g.xCoords.length = true := by
      have := hshapes _ (dictLookup_mem hyv)
      rwa [htn, htn'] at this
    exact entry_magnitudeMat sq hxs hys i j hi hj

/-- C1 witness: a `1 × 2` grid with `x_vel` and `y_vel` point arrays. -/
theorem claim_C1_velocity_magnitude_witness :
    (reshapeFold (((([(0 : ℚ)] : Vec).length : Int)) - 1)
        ((([(0 : ℚ), 1] : Vec).length : Int) - 1) [] [] = .ok []) ∧
    (reshapeFold ((([(0 : ℚ)] : Vec).length : Int))
        ((([(0 : ℚ), 1] : Vec).length : Int))
        [("x_vel", [1, 2]), ("y_vel", [3, 4])] [] =
      .ok [("x_vel", [[1, 2]]), ("y_vel", [[3, 4]])]) ∧
    (read_vtk_file (fun _ => 0) ⟨[0, 1], [0], [],
        [("x_vel", [1, 2]), ("y_vel", [3, 4])]⟩ =
      .ok ⟨[0, 1], [0], [],
        addVelocityMagnitude (fun _ => 0)
          [("x_vel", [[1, 2]]), ("y_vel", [[3, 4]])]⟩ ∧
      dictLookup "velocity_magnitude"
          (addVelocityMagnitude (fun _ => 0)
            [("x_vel", [[1, 2]]), ("y_vel", [[3, 4]])]) =
        some (magnitudeMat (fun _ => 0) [[1, 2]] [[3, 4]]) ∧
      dictLookup "x_vel"
          (addVelocityMagnitude (fun _ => 0)
            [("x_vel", [[1, 2]]), ("y_vel", [[3, 4]])]) = some [[1, 2]] ∧
      dictLookup "y_vel"
          (addVelocityMagnitude (fun _ => 0)
            [("x_vel", [[1, 2]]), ("y_vel", [[3, 4]])]) = some [[3, 4]] ∧
      ∀ i j, i < ([(0 : ℚ)] : Vec).length → j < ([(0 : ℚ), 1] : Vec).length →
        entry (magnitudeMat (fun _ => 0) [[1, 2]] [[3, 4]]) i j =
          (fun _ => (0 : ℚ))
            (entry [[1, 2]] i j * entry [[1, 2]] i j +
              entry [[3, 4]] i j * entry [[3, 4]] i j)) :=
  ⟨by decide, by decide,
    claim_C1_velocity_magnitude (fun _ => 0)
      ⟨[0, 1], [0], [], [("x_vel", [1, 2]), ("y_vel", [3, 4])]⟩
      [] [("x_vel", [[1, 2]]), ("y_vel", [[3, 4]])] [[1, 2]] [[3, 4]]
      (by decide) (by decide) (by decide) (by decide)⟩

/-- C3 as stated is false: with an empty Y axis (`ny = 0`) the Python
expression `len(y_coords) - 1` is `-1`, and numpy reshape treats `-1` as
a dimension to infer, so a cell array whose element count (here `4`)
disagrees with `(ny-1)*(nx-1)` (here `-2`) is silently reshaped to
`(2, 2)` and the reader returns it instead of raising. -/
theorem claim_C3_counterexample :
    read_vtk_file (fun q => q) ⟨[0, 1, 2], [], [("density", [1, 2, 3, 4])], []⟩ =
      .ok ⟨[0, 1, 2], [], [("density", [[1, 2], [3, 4]])], []⟩ ∧
    (([(1 : ℚ), 2, 3, 4].length : Int) ≠
      ((([] : Vec).length : Int) - 1) * ((([(0 : ℚ), 1, 2] : Vec).length : Int) - 1)) ∧
    hasShape [[1, 2], [3, 4]] 2 2 = true := by decide

/-- C3 amended: for snapshots with nonempty axes (`nx ≥ 1`, `ny ≥ 1`) the
shape invariant holds — every cell field has shape `(ny-1, nx-1)` and
every point field shape `(ny, nx)` — and an array whose element count
disagrees with the target shape makes the reader raise, never truncate.
(With an empty axis, numpy `-1` inference can instead silently reshape,
see the counterexample.) -/
theorem claim_C3_amended_shape_invariant (sq : Scalar → Scalar) (g : RawGrid)
    (hx : 1 ≤ g.xCoords.length) (hy : 1 ≤ g.yCoords.length) :
    (∀ r, read_vtk_file sq g = .ok r →
      (∀ p ∈ r.cellData,
        hasShape p.2 (g.yCoords.length - 1) (g.xCoords.length - 1) = true) ∧
      (∀ p ∈ r.pointData,
        hasShape p.2 g.yCoords.length g.xCoords.length = true)) ∧
    ((∃ p ∈ g.cellArrays,
        p.2.length ≠ (g.yCoords.length - 1) * (g.xCoords.length - 1)) →
      ∃ e, read_vtk_file sq g = .error e) ∧
    ((∃ p ∈ g.pointArrays, p.2.length ≠ g.yCoords.length * g.xCoords.length) →
      ∃ e, read_vtk_file sq g = .error e) := by
  have hcnn : (0 : Int) ≤ (g.yCoords.length : Int) - 1 := by omega
  have hcnn' : (0 : Int) ≤ (g.xCoords.length : Int) - 1 := by omega
  have hpnn : (0 : Int) ≤ (g.yCoords.length : Int) := Int.natCast_nonneg _
  have hpnn' : (0 : Int) ≤ (g.xCoords.length : Int) := Int.natCast_nonneg _
  have htc : ((g.yCoords.length : Int) - 1).toNat = g.yCoords.length - 1 := by
    omega
  have htc' : ((g.xCoords.length : Int) - 1).toNat = g.xCoords.length - 1 := by
    omega
  have htp : ((g.yCoords.length : Int)).toNat = g.yCoords.length :=
    Int.toNat_natCast _
  have htp' : ((g.xCoords.length : Int)).toNat = g.xCoords.length :=
    Int.toNat_natCast _
  refine ⟨?_, ?_, ?_⟩
  · intro r hr
    cases hcd : reshapeFold ((g.yCoords.length : Int) - 1)
        ((g.xCoords.length : Int) - 1) g.cellArrays [] with
    | error e =>
        have heq : read_vtk_file sq g = .error e := by
          unfold read_vtk_file
          simp only [hcd]
        rw [heq] at hr
        cases hr
    | ok cd =>
        cases hpd : reshapeFold ((g.yCoords.length : Int))
            ((g.xCoords.length : Int)) g.pointArrays [] with
        | error e =>
            have heq : read_vtk_file sq g = .error e := by
              unfold read_vtk_file
              simp only [hcd, hpd]
            rw [heq] at hr
            cases hr
        | ok pd =>
            have heq : read_vtk_file sq g =
                .ok ⟨g.xCoords, g.yCoords, cd, addVelocityMagnitude sq pd⟩ := by
              unfold read_vtk_file
              simp only [hcd, hpd]
            rw [heq] at hr
            cases hr
            have hcells := reshapeFold_shapes hcnn hcnn' g.cellArrays [] cd
              (by intro p hp; simp at hp) hcd
            have hpoints := reshapeFold_shapes hpnn hpnn' g.pointArrays [] pd
              (by intro p hp; simp at hp) hpd
            constructor
            · intro p hp
              have := hcells p hp
              rwa [htc, htc'] at this
            · intro p hp
              rcases mem_addVelocityMagnitude hp with ⟨xv, yv, hxv, hyv, rfl⟩ | hp'
              · have hxs := hpoints _ (dictLookup_mem hxv)
                have hys := hpoints _ (dictLookup_mem hyv)
                rw [htp, htp'] at hxs hys
                exact magnitudeMat_shape sq hxs hys
              · have := hpoints p hp'
                rwa [htp, htp'] at this
  · intro hmis
    obtain ⟨p, hp, hne⟩ := hmis
    have hnone : npReshape2 p.2 ((g.yCoords.length : Int) - 1)
        ((g.xCoords.length : Int) - 1) = none := by
      refine npReshape2_none_of_length hcnn hcnn' ?_
      rw [htc, htc']
      exact hne
    obtain ⟨e, he⟩ := reshapeFold_error g.cellArrays [] ⟨p, hp, hnone⟩
    refine ⟨e, ?_⟩
    unfold read_vtk_file
    simp only [he]
  · intro hmis
    obtain ⟨p, hp, hne⟩ := hmis
    have hnone : npReshape2 p.2 ((g.yCoords.length : Int))
        ((g.xCoords.length : Int)) = none := by
      refine npReshape2_none_of_length hpnn hpnn' ?_
      rw [htp, htp']
      exact hne
    obtain ⟨e, he⟩ := reshapeFold_error g.pointArrays [] ⟨p, hp, hnone⟩
    cases hcd : reshapeFold ((g.yCoords.length : Int) - 1)
        ((g.xCoords.length : Int) - 1) g.cellArrays [] with
    | error e' =>
        refine ⟨e', ?_⟩
        unfold read_vtk_file
        simp only [hcd]
    | ok cd =>
        refine ⟨e, ?_⟩
        unfold read_vtk_file
        simp only [hcd, he]

/-- C3 amended witness: a `2 × 2` grid whose point array has 3 ≠ 4
elements is rejected, and a well-formed one keeps its shapes. -/
theorem claim_C3_amended_shape_invariant_witness :
    1 ≤ ([(0 : ℚ), 1] : Vec).length ∧
    (∃ p ∈ ([("u", [5, 6, 7])] : List (String × Vec)),
      p.2.length ≠ ([(0 : ℚ), 1] : Vec).length * ([(0 : ℚ), 1] : Vec).length) ∧
    (∃ e, read_vtk_file (fun _ => 0) ⟨[0, 1], [0, 1], [], [("u", [5, 6, 7])]⟩ =
      .error e) :=
  ⟨by decide, ⟨("u", [5, 6, 7]), by decide, by decide⟩,
    (claim_C3_amended_shape_invariant (fun _ => 0)
      ⟨[0, 1], [0, 1], [], [("u", [5, 6, 7])]⟩ (by decide) (by decide)).2.2
      ⟨("u", [5, 6, 7]), by decide, by decide⟩⟩

/-- C8: the broadcast coordinate grids satisfy `x_grid_2d[i,j] = x[j]` and
`y_grid_2d[i,j] = y[i]`, and both have the point-field shape
`(len(y), len(x))`. -/
theorem claim_C8_coordinate_broadcast (x y : Vec) (i j : Nat)
    (hi : i < y.length) (hj : j < x.length) :
    hasShape (xCoords2d x y.length) y.length x.length = true ∧
    hasShape (yCoords2d y x.length) y.length x.length = true ∧
    entry (xCoords2d x y.length) i j = x.getD j 0 ∧
    entry (yCoords2d y x.length) i j = y.getD i 0 := by
  refine ⟨xCoords2d_shape x y.length, yCoords2d_shape y x.length, ?_, ?_⟩
  · rw [entry, xCoords2d]
    have hrow : (List.replicate y.length x).getD i [] = x := by
      rw [List.getD_eq_getElem _ _ (by simpa using hi)]
      exact List.getElem_replicate ..
    rw [hrow]
  · rw [entry, yCoords2d]
    have hrow : (y.map (fun c => List.replicate x.length c)).getD i [] =
        List.replicate x.length (y.getD i 0) := by
      rw [List.getD_eq_getElem _ _ (by simpa using hi),
        List.getD_eq_getElem _ _ hi]
      exact List.getElem_map ..
    rw [hrow]
    rw [List.getD_eq_getElem _ _ (by simpa using hj)]
    exact List.getElem_replicate ..

/-- C8 witness at a concrete grid and index. -/
theorem claim_C8_coordinate_broadcast_witness :
    (1 < ([(4 : ℚ), 5] : Vec).length ∧ 0 < ([(7 : ℚ)] : Vec).length) ∧
    (hasShape (xCoords2d [(7 : ℚ)] ([(4 : ℚ), 5] : Vec).length)
        ([(4 : ℚ), 5] : Vec).length ([(7 : ℚ)] : Vec).length = true ∧
      hasShape (yCoords2d [(4 : ℚ), 5] ([(7 : ℚ)] : Vec).length)
        ([(4 : ℚ), 5] : Vec).length ([(7 : ℚ)] : Vec).length = true ∧
      entry (xCoords2d [(7 : ℚ)] ([(4 : ℚ), 5] : Vec).length) 1 0 =
        ([(7 : ℚ)] : Vec).getD 0 0 ∧
      entry (yCoords2d [(4 : ℚ), 5] ([(7 : ℚ)] : Vec).length) 1 0 =
        ([(4 : ℚ), 5] : Vec).getD 1 0) :=
  ⟨⟨by decide, by decide⟩,
    claim_C8_coordinate_broadcast [(7 : ℚ)] [(4 : ℚ), 5] 1 0
      (by decide) (by decide)⟩

/-- C4: a successfully packed bundle is exactly the ordered stack
`[magnitude, x_vel, y_vel, x_grid_2d, y_grid_2d]` — a `[5, ny, nx]`
array — and indexing the stack recovers each original array exactly
(the model is exact arithmetic, so "bit-identical" and "tolerance-equal"
coincide with equality). -/
theorem claim_C4_bundle_stack_order (d : ReadResult) (t : Nat) (b : Bundle)
    (h : save_timestep_data d t = .ok b) :
    ∃ mag xv yv,
      dictLookup "velocity_magnitude" d.pointData = some mag ∧
      dictLookup "x_vel" d.pointData = some xv ∧
      dictLookup "y_vel" d.pointData = some yv ∧
      b.stack = [mag, xv, yv, xCoords2d d.xCoords d.yCoords.length,
        yCoords2d d.yCoords d.xCoords.length] ∧
      b.stack.length = 5 ∧
      b.stack.getD 0 [] = mag ∧
      b.stack.getD 1 [] = xv ∧
      b.stack.getD 2 [] = yv ∧
      b.stack.getD 3 [] = xCoords2d d.xCoords d.yCoords.length ∧
      b.stack.getD 4 [] = yCoords2d d.yCoords d.xCoords.length ∧
      ∀ m ∈ b.stack, hasShape m d.yCoords.length d.xCoords.length = true := by
  obtain ⟨mag, xv, yv, hm, hx, hy, hb, hsh⟩ := save_ok_spec h
  subst hb
  refine ⟨mag, xv, yv, hm, hx, hy, rfl, rfl, rfl, rfl, rfl, rfl, rfl, ?_⟩
  have hx2d : shapeOf (xCoords2d d.xCoords d.yCoords.length) = shapeOf mag :=
    hsh _ (by simp)
  have hmagsh : hasShape mag d.yCoords.length d.xCoords.length = true :=
    hasShape_of_shapeOf_eq hx2d (xCoords2d_shape d.xCoords d.yCoords.length)
  intro m hmem
  exact hasShape_of_shapeOf_eq (hsh m hmem).symm hmagsh

/-- C4 witness: packing a concrete `1 × 1` read result. -/
theorem claim_C4_bundle_stack_order_witness :
    save_timestep_data
        ⟨[(0 : ℚ)], [(0 : ℚ)], [],
          [("x_vel", [[3]]), ("y_vel", [[4]]), ("velocity_magnitude", [[5]])]⟩ 2 =
      .ok ⟨"timestep_0002.npy", [[[5]], [[3]], [[4]], [[0]], [[0]]]⟩ ∧
    (∃ mag xv yv,
      dictLookup "velocity_magnitude"
        (⟨[(0 : ℚ)], [(0 : ℚ)], [],
          [("x_vel", [[3]]), ("y_vel", [[4]]),
            ("velocity_magnitude", [[5]])]⟩ : ReadResult).pointData = some mag ∧
      dictLookup "x_vel"
        (⟨[(0 : ℚ)], [(0 : ℚ)], [],
          [("x_vel", [[3]]), ("y_vel", [[4]]),
            ("velocity_magnitude", [[5]])]⟩ : ReadResult).pointData = some xv ∧
      dictLookup "y_vel"
        (⟨[(0 : ℚ)], [(0 : ℚ)], [],
          [("x_vel", [[3]]), ("y_vel", [[4]]),
            ("velocity_magnitude", [[5]])]⟩ : ReadResult).pointData = some yv ∧
      (⟨"timestep_0002.npy", [[[5]], [[3]], [[4]], [[0]], [[0]]]⟩ : Bundle).stack =
        [mag, xv, yv,
          xCoords2d [(0 : ℚ)] ([(0 : ℚ)] : Vec).length,
          yCoords2d [(0 : ℚ)] ([(0 : ℚ)] : Vec).length] ∧
      (⟨"timestep_0002.npy", [[[5]], [[3]], [[4]], [[0]], [[0]]]⟩ : Bundle).stack.length = 5 ∧
      (⟨"timestep_0002.npy", [[[5]], [[3]], [[4]], [[0]], [[0]]]⟩ : Bundle).stack.getD 0 [] = mag ∧
      (⟨"timestep_0002.npy", [[[5]], [[3]], [[4]], [[0]], [[0]]]⟩ : Bundle).stack.getD 1 [] = xv ∧
      (⟨"timestep_0002.npy", [[[5]], [[3]], [[4]], [[0]], [[0]]]⟩ : Bundle).stack.getD 2 [] = yv ∧
      (⟨"timestep_0002.npy", [[[5]], [[3]], [[4]], [[0]], [[0]]]⟩ : Bundle).stack.getD 3 [] =
        xCoords2d [(0 : ℚ)] ([(0 : ℚ)] : Vec).length ∧
      (⟨"timestep_0002.npy", [[[5]], [[3]], [[4]], [[0]], [[0]]]⟩ : Bundle).stack.getD 4 [] =
        yCoords2d [(0 : ℚ)] ([(0 : ℚ)] : Vec).length ∧
      ∀ m ∈ (⟨"timestep_0002.npy", [[[5]], [[3]], [[4]], [[0]], [[0]]]⟩ : Bundle).stack,
        hasShape m ([(0 : ℚ)] : Vec).length ([(0 : ℚ)] : Vec).length = true) :=
  ⟨by decide,
    claim_C4_bundle_stack_order
      ⟨[(0 : ℚ)], [(0 : ℚ)], [],
        [("x_vel", [[3]]), ("y_vel", [[4]]), ("velocity_magnitude", [[5]])]⟩ 2
      ⟨"timestep_0002.npy", [[[5]], [[3]], [[4]], [[0]], [[0]]]⟩ (by decide)⟩

/-- C6: a snapshot with `x_vel` but no `y_vel` (and no raw field named
`velocity_magnitude`) reads successfully with no derived magnitude field
and no error; packing that snapshot then raises (`KeyError: 'y_vel'`, the
code's `PackError`) before `np.save`, so no bundle file is written. -/
theorem claim_C6_missing_component (sq : Scalar → Scalar) (g : RawGrid)
    (cd pd0 : List (String × Mat)) (xv : Mat)
    (hcd : reshapeFold ((g.yCoords.length : Int) - 1)
      ((g.xCoords.length : Int) - 1) g.cellArrays [] = .ok cd)
    (hpd : reshapeFold (g.yCoords.length : Int) (g.xCoords.length : Int)
      g.pointArrays [] = .ok pd0)
    (hxv : dictLookup "x_vel" pd0 = some xv)
    (hyv : dictLookup "y_vel" pd0 = none)
    (hvm : dictLookup "velocity_magnitude" pd0 = none) :
    read_vtk_file sq g = .ok ⟨g.xCoords, g.yCoords, cd, pd0⟩ ∧
    dictLookup "velocity_magnitude" pd0 = none ∧
    ∀ t, save_timestep_data ⟨g.xCoords, g.yCoords, cd, pd0⟩ t =
      .error "KeyError: y_vel" := by
  have hadd : addVelocityMagnitude sq pd0 = pd0 := by
    unfold addVelocityMagnitude
    rw [hxv, hyv]
  refine ⟨?_, hvm, ?_⟩
  · unfold read_vtk_file
    simp only [hcd, hpd, hadd]
  · intro t
    unfold save_timestep_data
    simp only [hxv, hyv, hvm]

/-- C6 witness: a `1 × 2` grid with only `x_vel`. -/
theorem claim_C6_missing_component_witness :
    (dictLookup "x_vel" ([("x_vel", [[1, 2]])] : List (String × Mat)) =
        some [[1, 2]] ∧
      dictLookup "y_vel" ([("x_vel", [[1, 2]])] : List (String × Mat)) = none) ∧
    (read_vtk_file (fun _ => 0) ⟨[0, 1], [0], [], [("x_vel", [1, 2])]⟩ =
        .ok ⟨[0, 1], [0], [], [("x_vel", [[1, 2]])]⟩ ∧
      dictLookup "velocity_magnitude"
        ([("x_vel", [[1, 2]])] : List (String × Mat)) = none ∧
      ∀ t, save_timestep_data ⟨[0, 1], [0], [], [("x_vel", [[1, 2]])]⟩ t =
        .error "KeyError: y_vel") :=
  ⟨⟨by decide, by decide⟩,
    claim_C6_missing_component (fun _ => 0)
      ⟨[0, 1], [0], [], [("x_vel", [1, 2])]⟩ [] [("x_vel", [[1, 2]])] [[1, 2]]
      (by decide) (by decide) (by decide) (by decide) (by decide)⟩

/-- C10: the two reader variants agree on every input grid — they fail
together with the same error, and on success return the same coordinates,
the same cell fields, and the same point-field mapping (including the
derived `velocity_magnitude`), even though clover_vis checks for the
velocity components once after its point loop while visualize_V2 checks
inside the loop on every iteration. -/
theorem claim_C10_reader_equivalence (sq : Scalar → Scalar) (g : RawGrid) :
    match read_vtk_file sq g, read_vtk_file_V2 sq g with
    | .ok r1, .ok r2 =>
        r1.xCoords = r2.xCoords ∧ r1.yCoords = r2.yCoords ∧
        r1.cellData = r2.cellData ∧
        ∀ k, dictLookup k r1.pointData = dictLookup k r2.pointData
    | .error e1, .error e2 => e1 = e2
    | _, _ => False := by
  have hmain := reshapeFoldV2_agree sq (g.yCoords.length : Int)
    (g.xCoords.length : Int) g.pointArrays [] [] (Agree.nil sq)
  cases hcd : reshapeFold ((g.yCoords.length : Int) - 1)
      ((g.xCoords.length : Int) - 1) g.cellArrays [] with
  | error e =>
      have heq1 : read_vtk_file sq g = .error e := by
        unfold read_vtk_file
        simp only [hcd]
      have heq2 : read_vtk_file_V2 sq g = .error e := by
        unfold read_vtk_file_V2
        simp only [hcd]
      rw [heq1, heq2]
  | ok cd =>
      cases hv2 : reshapeFoldV2 sq (g.yCoords.length : Int)
          (g.xCoords.length : Int) g.pointArrays [] with
      | error e1 =>
          cases hcv : reshapeFold (g.yCoords.length : Int)
              (g.xCoords.length : Int) g.pointArrays [] with
          | error e2 =>
              rw [hv2, hcv] at hmain
              have heq1 : read_vtk_file sq g = .error e2 := by
                unfold read_vtk_file
                simp only [hcd, hcv]
              have heq2 : read_vtk_file_V2 sq g = .error e1 := by
                unfold read_vtk_file_V2
                simp only [hcd, hv2]
              rw [heq1, heq2]
              exact hmain.symm
          | ok pd2 =>
              rw [hv2, hcv] at hmain
              exact hmain.elim
      | ok pd1 =>
          cases hcv : reshapeFold (g.yCoords.length : Int)
              (g.xCoords.length : Int) g.pointArrays [] with
          | error e2 =>
              rw [hv2, hcv] at hmain
              exact hmain.elim
          | ok pd2 =>
              rw [hv2, hcv] at hmain
              have heq1 : read_vtk_file sq g =
                  .ok ⟨g.xCoords, g.yCoords, cd, addVelocityMagnitude sq pd2⟩ := by
                unfold read_vtk_file
                simp only [hcd, hcv]
              have heq2 : read_vtk_file_V2 sq g =
                  .ok ⟨g.xCoords, g.yCoords, cd, pd1⟩ := by
                unfold read_vtk_file_V2
                simp only [hcd, hv2]
              rw [heq1, heq2]
              exact ⟨rfl, rfl, rfl, fun k => (hmain k).symm⟩

/-- C2 as stated is false: `process_all_files` visits the files in
lexically sorted filename order (Python `sorted` on the globbed paths),
not by parsed timestep token.  With tokens 2 and 10, the lexical order
puts `...10.vtk` before `...2.vtk`, so the pass visits token 10 first —
the visit-order tokens `[10, 2]` are not strictly increasing — and the
first bundle written holds the token-10 file's data (`x_vel = 3`). -/
theorem claim_C2_counterexample :
    get_timestep "clover.0.0.2.vtk" = 2 ∧
    get_timestep "clover.0.0.10.vtk" = 10 ∧
    (lexSort
        [⟨"clover.0.0.2.vtk", ⟨[0], [0], [], [("x_vel", [6]), ("y_vel", [8])]⟩⟩,
         ⟨"clover.0.0.10.vtk", ⟨[0], [0], [], [("x_vel", [3]), ("y_vel", [4])]⟩⟩]).map
      (fun f => get_timestep f.name) = [10, 2] ∧
    ¬ ((lexSort
        [⟨"clover.0.0.2.vtk", ⟨[0], [0], [], [("x_vel", [6]), ("y_vel", [8])]⟩⟩,
         ⟨"clover.0.0.10.vtk", ⟨[0], [0], [], [("x_vel", [3]), ("y_vel", [4])]⟩⟩]).map
      (fun f => get_timestep f.name)).Pairwise (· < ·) ∧
    process_all_files (fun _ => 0)
        [⟨"clover.0.0.2.vtk", ⟨[0], [0], [], [("x_vel", [6]), ("y_vel", [8])]⟩⟩,
         ⟨"clover.0.0.10.vtk", ⟨[0], [0], [], [("x_vel", [3]), ("y_vel", [4])]⟩⟩] =
      .ok [⟨"timestep_0000.npy", [[[0]], [[3]], [[4]], [[0]], [[0]]]⟩,
           ⟨"timestep_0001.npy", [[[0]], [[6]], [[8]], [[0]], [[0]]]⟩] := by
  decide

/-- C2 amended: the variant that does sort by parsed token,
`CloverLeafAnalyzer._find_vtk_files`, visits the files as a permutation
of the input in strictly increasing token order whenever the parsed
tokens are distinct, regardless of the enumeration order; the packing
pass of clover_vis instead visits in lexical filename order (see the
counterexample). -/
theorem claim_C2_amended_token_sort (files : List String)
    (hnd : (files.map get_timestep).Nodup) :
    (find_vtk_files files).Perm files ∧
    ((find_vtk_files files).map get_timestep).Pairwise (· < ·) := by
  haveI ht : IsTotal String (fun a b => get_timestep a ≤ get_timestep b) :=
    ⟨fun a b => le_total _ _⟩
  haveI htr : IsTrans String (fun a b => get_timestep a ≤ get_timestep b) :=
    ⟨fun a b c h1 h2 => le_trans h1 h2⟩
  have hperm : (find_vtk_files files).Perm files :=
    List.perm_insertionSort _ files
  refine ⟨hperm, ?_⟩
  have hsort : List.Pairwise (fun a b => get_timestep a ≤ get_timestep b)
      (find_vtk_files files) :=
    List.sorted_insertionSort _ files
  have hnd2 : ((find_vtk_files files).map get_timestep).Nodup :=
    ((hperm.map get_timestep).nodup_iff).2 hnd
  have hne : List.Pairwise (fun a b => get_timestep a ≠ get_timestep b)
      (find_vtk_files files) := List.pairwise_map.1 hnd2
  rw [List.pairwise_map]
  exact (hsort.and hne).imp (fun h => lt_of_le_of_ne h.1 h.2)

/-- C2 amended witness: three files with distinct tokens 3, 1, 2. -/
theorem claim_C2_amended_token_sort_witness :
    ((["a.0.0.3.vtk", "a.0.0.1.vtk", "a.0.0.2.vtk"].map get_timestep).Nodup) ∧
    ((find_vtk_files ["a.0.0.3.vtk", "a.0.0.1.vtk", "a.0.0.2.vtk"]).Perm
        ["a.0.0.3.vtk", "a.0.0.1.vtk", "a.0.0.2.vtk"] ∧
      ((find_vtk_files ["a.0.0.3.vtk", "a.0.0.1.vtk", "a.0.0.2.vtk"]).map
        get_timestep).Pairwise (· < ·)) :=
  ⟨by decide, claim_C2_amended_token_sort _ (by decide)⟩

/-- C5 as stated is false: no `ValidationError` exists anywhere in the
code.  Two filenames carrying the same token 7 are both processed and
both packed — packing does occur. -/
theorem claim_C5_counterexample :
    get_timestep "a.0.0.7.vtk" = 7 ∧
    get_timestep "b.0.0.7.vtk" = 7 ∧
    process_all_files (fun _ => 0)
        [⟨"a.0.0.7.vtk", ⟨[0], [0], [], [("x_vel", [3]), ("y_vel", [4])]⟩⟩,
         ⟨"b.0.0.7.vtk", ⟨[0], [0], [], [("x_vel", [6]), ("y_vel", [8])]⟩⟩] =
      .ok [⟨"timestep_0000.npy", [[[0]], [[3]], [[4]], [[0]], [[0]]]⟩,
           ⟨"timestep_0001.npy", [[[0]], [[6]], [[8]], [[0]], [[0]]]⟩] := by
  decide

/-- C5 amended: duplicate timestep tokens are not detected — the
aggregation never raises a `ValidationError`.  Whenever every file
individually reads and packs, the pass succeeds and packs one bundle per
file, with no distinctness condition on the tokens. -/
theorem claim_C5_amended_no_duplicate_check (sq : Scalar → Scalar)
    (files : List VFile)
    (h : ∀ f ∈ files, ∃ d, read_vtk_file sq f.grid = .ok d ∧
      ∀ t, ∃ b, save_timestep_data d t = .ok b) :
    ∃ bs, process_all_files sq files = .ok bs ∧ bs.length = files.length := by
  have hperm : (lexSort files).Perm files := List.perm_insertionSort _ files
  obtain ⟨bs, hpr, hlen⟩ := processFrom_all_ok (lexSort files) 0
    (fun f hf => h f (hperm.mem_iff.1 hf))
  exact ⟨bs, hpr, by rw [hlen, hperm.length_eq]⟩

/-- C5 amended witness: both duplicate-token files pack. -/
theorem claim_C5_amended_no_duplicate_check_witness :
    get_timestep "a.0.0.7.vtk" = get_timestep "b.0.0.7.vtk" ∧
    (∃ bs, process_all_files (fun _ => 0)
        [⟨"a.0.0.7.vtk", ⟨[0], [0], [], [("x_vel", [3]), ("y_vel", [4])]⟩⟩,
         ⟨"b.0.0.7.vtk", ⟨[0], [0], [], [("x_vel", [6]), ("y_vel", [8])]⟩⟩] =
        .ok bs ∧ bs.length = 2) :=
  ⟨by decide,
    claim_C5_amended_no_duplicate_check (fun _ => 0)
      [⟨"a.0.0.7.vtk", ⟨[0], [0], [], [("x_vel", [3]), ("y_vel", [4])]⟩⟩,
       ⟨"b.0.0.7.vtk", ⟨[0], [0], [], [("x_vel", [6]), ("y_vel", [8])]⟩⟩]
      (by
        intro f hf
        simp only [List.mem_cons, List.not_mem_nil, or_false] at hf
        rcases hf with rfl | rfl
        · exact ⟨_, rfl, fun t => ⟨_, rfl⟩⟩
        · exact ⟨_, rfl, fun t => ⟨_, rfl⟩⟩)⟩

/-- C7 as stated is false: the 4-digit zero-padded index in the bundle
file name is the file's position in the lexically sorted discovery list,
not the timestep token embedded in the source filename.  The token-10
file sorts first and its bundle is written as `timestep_0000.npy`, not
`timestep_0010.npy`. -/
theorem claim_C7_counterexample :
    get_timestep "clover.0.0.10.vtk" = 10 ∧
    bundleFilename 10 = "timestep_0010.npy" ∧
    process_all_files (fun _ => 0)
        [⟨"clover.0.0.10.vtk", ⟨[0], [0], [], [("x_vel", [3]), ("y_vel", [4])]⟩⟩,
         ⟨"clover.0.0.2.vtk", ⟨[0], [0], [], [("x_vel", [6]), ("y_vel", [8])]⟩⟩] =
      .ok [⟨"timestep_0000.npy", [[[0]], [[3]], [[4]], [[0]], [[0]]]⟩,
           ⟨"timestep_0001.npy", [[[0]], [[6]], [[8]], [[0]], [[0]]]⟩] := by
  decide

/-- C7 amended: every packed bundle is named by the 4-digit zero-padded
index equal to its position `j` in the lexically sorted file list (the
enumeration order of the pass), and bundle `j` is produced from the
file at that position. -/
theorem claim_C7_amended_enumeration_naming (sq : Scalar → Scalar)
    (files : List VFile) (bs : List Bundle)
    (h : process_all_files sq files = .ok bs) :
    bs.length = files.length ∧
    ∀ j, j < bs.length →
      (bs.getD j default).filename = bundleFilename j ∧
      ∃ d, read_vtk_file sq ((lexSort files).getD j default).grid = .ok d ∧
        save_timestep_data d j = .ok (bs.getD j default) := by
  unfold process_all_files at h
  obtain ⟨hlen, hspec⟩ := processFrom_ok (lexSort files) 0 bs h
  have hlenf : (lexSort files).length = files.length :=
    (List.perm_insertionSort _ files).length_eq
  refine ⟨by rw [hlen, hlenf], ?_⟩
  intro j hj
  obtain ⟨d, hre, hsv⟩ := hspec j hj
  rw [Nat.zero_add] at hsv
  obtain ⟨mag, xv, yv, _, _, _, hb, _⟩ := save_ok_spec hsv
  refine ⟨?_, d, hre, hsv⟩
  rw [hb]

/-- C7 amended witness: two files in reverse lexical order. -/
theorem claim_C7_amended_enumeration_naming_witness :
    process_all_files (fun _ => 0)
        [⟨"b.vtk", ⟨[0], [0], [], [("x_vel", [3]), ("y_vel", [4])]⟩⟩,
         ⟨"a.vtk", ⟨[0], [0], [], [("x_vel", [6]), ("y_vel", [8])]⟩⟩] =
      .ok [⟨"timestep_0000.npy", [[[0]], [[6]], [[8]], [[0]], [[0]]]⟩,
           ⟨"timestep_0001.npy", [[[0]], [[3]], [[4]], [[0]], [[0]]]⟩] ∧
    (([⟨"timestep_0000.npy", [[[0]], [[6]], [[8]], [[0]], [[0]]]⟩,
        ⟨"timestep_0001.npy", [[[0]], [[3]], [[4]], [[0]], [[0]]]⟩] : List Bundle).length =
      ([⟨"b.vtk", ⟨[0], [0], [], [("x_vel", [3]), ("y_vel", [4])]⟩⟩,
        ⟨"a.vtk", ⟨[0], [0], [], [("x_vel", [6]), ("y_vel", [8])]⟩⟩] : List VFile).length ∧
      ∀ j, j < ([⟨"timestep_0000.npy", [[[0]], [[6]], [[8]], [[0]], [[0]]]⟩,
          ⟨"timestep_0001.npy", [[[0]], [[3]], [[4]], [[0]], [[0]]]⟩] : List Bundle).length →
        (([⟨"timestep_0000.npy", [[[0]], [[6]], [[8]], [[0]], [[0]]]⟩,
          ⟨"timestep_0001.npy", [[[0]], [[3]], [[4]], [[0]], [[0]]]⟩] : List Bundle).getD j
            default).filename = bundleFilename j ∧
        ∃ d, read_vtk_file (fun _ => 0)
            ((lexSort [⟨"b.vtk", ⟨[0], [0], [], [("x_vel", [3]), ("y_vel", [4])]⟩⟩,
              ⟨"a.vtk", ⟨[0], [0], [], [("x_vel", [6]), ("y_vel", [8])]⟩⟩]).getD j
              default).grid = .ok d ∧
          save_timestep_data d j =
            .ok (([⟨"timestep_0000.npy", [[[0]], [[6]], [[8]], [[0]], [[0]]]⟩,
              ⟨"timestep_0001.npy", [[[0]], [[3]], [[4]], [[0]], [[0]]]⟩] : List Bundle).getD j
              default)) :=
  ⟨by decide,
    claim_C7_amended_enumeration_naming (fun _ => 0)
      [⟨"b.vtk", ⟨[0], [0], [], [("x_vel", [3]), ("y_vel", [4])]⟩⟩,
       ⟨"a.vtk", ⟨[0], [0], [], [("x_vel", [6]), ("y_vel", [8])]⟩⟩]
      [⟨"timestep_0000.npy", [[[0]], [[6]], [[8]], [[0]], [[0]]]⟩,
       ⟨"timestep_0001.npy", [[[0]], [[3]], [[4]], [[0]], [[0]]]⟩] (by decide)⟩

set_option maxRecDepth 40000 in
/-- C9 as stated is false: a regex-matched block with a token that fails
`float()` conversion (`abc`) is not simply omitted — the `ValueError` is
caught by the function's surrounding `except`, which returns the empty
mapping, discarding the entry of the preceding well-formed block (step 1)
too.  The function does still return a mapping rather than raising. -/
theorem claim_C9_counterexample :
    (findBlocks logContentBad.data).map (fun b => digitsVal b.stepDigits) =
      [1, 2] ∧
    (convertBlock ((findBlocks logContentBad.data).getD 0
      ⟨[], [], [], [], [], [], [], [], [], []⟩)).isSome = true ∧
    parse_output_file logContentBad = [] := by
  decide

/-- C9 amended: every regex-matched block whose seven value tokens all
convert is mapped to an entry keyed by its integer step (with the seven
floats bound positionally, per `convertBlock`); non-matching content is
skipped by the scan; the function always returns a mapping and never
raises — but a failing conversion in any matched block makes it return
the empty mapping, discarding all blocks. -/
theorem claim_C9_amended_log_parse (content : String)
    (hconv : ∀ b ∈ findBlocks content.data, (convertBlock b).isSome = true)
    (hnd : ((findBlocks content.data).map
      (fun b => digitsVal b.stepDigits)).Nodup) :
    ∀ b ∈ findBlocks content.data,
      ∃ e, convertBlock b = some (digitsVal b.stepDigits, e) ∧
        dictLookup (digitsVal b.stepDigits) (parse_output_file content) =
          some e := by
  unfold parse_output_file
  exact convertBlocks_lookup (findBlocks content.data) [] hconv hnd

set_option maxRecDepth 40000 in
/-- C9 amended witness: a log with two well-formed blocks. -/
theorem claim_C9_amended_log_parse_witness :
    (∀ b ∈ findBlocks logContentOk.data, (convertBlock b).isSome = true) ∧
    ((findBlocks logContentOk.data).map
      (fun b => digitsVal b.stepDigits)).Nodup ∧
    ∀ b ∈ findBlocks logContentOk.data,
      ∃ e, convertBlock b = some (digitsVal b.stepDigits, e) ∧
        dictLookup (digitsVal b.stepDigits) (parse_output_file logContentOk) =
          some e :=
  ⟨by decide, by decide,
    claim_C9_amended_log_parse logContentOk (by decide) (by decide)⟩

end CloverVis
